import Mathlib

/-!
Verification of the Pricelists Excel-to-CSV converter
(`src/Pricelists/excel_to_csv_app.py`).

The embedding models cell values as the three shapes that occur in a frame
read from a price-list worksheet: text cells, integer cells and missing
cells (pandas renders a missing cell as the float NaN, whose textual form
is `nan`).  Python builtins used by the code (`str`, `float`, `int`,
`str.replace`) are modelled for this value domain.  The model of `float`
accepts what the CPython parser accepts on ASCII text: surrounding
whitespace, an optional sign, the words `inf`, `infinity` and `nan` in any
letter case, and decimal literals with underscores between digits and an
optional exponent; finite results are rounded to IEEE-754 binary64 by
round-to-nearest, ties-to-even, overflowing to an infinity beyond the
largest double.  The model of `int` on such a float value truncates a
finite double toward zero, raises `ValueError` on a nan (an exception the
`clean_number` except clause catches) and raises `OverflowError` on an
infinity (an exception that clause does not catch).
-/

set_option maxRecDepth 16384

deriving instance DecidableEq for Except

/-- A cell value of a frame read from a worksheet: a text cell, an integer
cell, or a missing cell (NaN). -/
inductive Value
  | str (s : String)
  | int (n : Int)
  | na
deriving DecidableEq

/-- Model of Python `str(value)` on the cell domain: text is returned as is,
integers render in decimal with a leading minus for negatives, and a missing
cell (NaN) renders as `nan`, matching `str(float("nan"))`. -/
def pyStr : Value → String
  | Value.str s => s
  | Value.int n => toString n
  | Value.na => "nan"

/-- Numeric value of a digit string (most significant digit first). -/
def digitsVal (l : List Char) : Nat :=
  l.foldl (fun acc c => acc * 10 + (c.toNat - 48)) 0

/-- The ASCII whitespace characters Python strips around a float literal. -/
def isPySpace (c : Char) : Bool :=
  c == ' ' || c == '\t' || c == '\n' || c == '\r' || c == '\x0b' || c == '\x0c'

/-- ASCII lower-casing, used for the case-insensitive words accepted by
`float`: `inf`, `infinity` and `nan`. -/
def lowerAscii (c : Char) : Char :=
  if 65 ≤ c.toNat ∧ c.toNat ≤ 90 then Char.ofNat (c.toNat + 32) else c

/-- Scan of the underscore rule of a Python numeric literal, given the
previous character: every underscore must stand between two digits. -/
def usValidAfter : Char → List Char → Bool
  | _, [] => true
  | prev, c :: rest =>
    if c = '_' then
      (prev.isDigit && (match rest with | d :: _ => d.isDigit | [] => false)) &&
        usValidAfter c rest
    else usValidAfter c rest

/-- Underscore rule of a Python numeric literal: underscores may only stand
between two digits, so in particular not first. -/
def usValid : List Char → Bool
  | [] => true
  | c :: rest => c != '_' && usValidAfter c rest

/-- Fuel-driven bit length of a natural number (`0` has no bits); the fuel
`n` itself always suffices. -/
def natBitsAux : Nat → Nat → Nat
  | 0, _ => 0
  | Nat.succ fuel, n => if n = 0 then 0 else natBitsAux fuel (n / 2) + 1

/-- Bit length of a natural number. -/
def natBits (n : Nat) : Nat :=
  natBitsAux n n

/-- Round the fraction `a / b` (with `b` positive) to the nearest natural
number, ties to even. -/
def roundHalfEven (a b : Nat) : Nat :=
  let q := a / b
  let r := a % b
  if 2 * r < b then q
  else if b < 2 * r then q + 1
  else if q % 2 = 0 then q else q + 1

/-- Magnitudes at or above this bound round to infinity in binary64: the
midpoint between the largest finite double `2 ^ 1024 - 2 ^ 971` and
`2 ^ 1024`, the tie itself rounding up to the even candidate.  Written with
shifts so that it evaluates fast. -/
def dblOverflowBound : Nat :=
  (1 <<< 1024) - (1 <<< 970)

/-- The value of a CPython float: a finite binary64 number
`(-1) ^ neg * m * 2 ^ e2`, an infinity, or a nan. -/
inductive PyFloatV
  | finite (neg : Bool) (m : Nat) (e2 : Int)
  | inf (neg : Bool)
  | nan
deriving DecidableEq

/-- Decides `p / q ≥ 2 ^ e` on positive naturals by clearing denominators. -/
def geTwoPow (p q : Nat) (e : Int) : Bool :=
  if 0 ≤ e then q <<< e.toNat ≤ p else q ≤ p <<< (-e).toNat

/-- Round the positive rational `p / q` to binary64 by round-to-nearest,
ties-to-even: overflow check, exact binary exponent via bit lengths, then a
53-bit (or subnormal) mantissa with half-even rounding. -/
def roundPQ (neg : Bool) (p q : Nat) : PyFloatV :=
  if dblOverflowBound * q ≤ p then PyFloatV.inf neg
  else
    let e0 : Int := (natBits p : Int) - (natBits q : Int)
    let e : Int := if geTwoPow p q e0 then e0 else e0 - 1
    if e < -1022 then
      PyFloatV.finite neg (roundHalfEven (p <<< 1074) q) (-1074)
    else
      let m :=
        if 0 ≤ 52 - e then roundHalfEven (p <<< (52 - e).toNat) q
        else roundHalfEven p (q <<< (e - 52).toNat)
      if m = 2 ^ 53 then PyFloatV.finite neg (2 ^ 52) (e - 51)
      else PyFloatV.finite neg m (e - 52)

/-- Binary64 value of the decimal literal `(-1) ^ neg * n * 10 ^ dexp`,
where `ndigits` bounds the digit count of `n` (`n < 10 ^ ndigits`).  The two
shortcut branches are exact: `10 ^ 309` already exceeds the overflow bound,
and a magnitude below `10 ^ (-324)` lies below half the smallest subnormal
`2 ^ (-1075)`, so it rounds to zero. -/
def decToFloat (neg : Bool) (n : Nat) (dexp : Int) (ndigits : Nat) : PyFloatV :=
  if n = 0 then PyFloatV.finite neg 0 0
  else if 309 ≤ dexp then PyFloatV.inf neg
  else if dexp + (ndigits : Int) ≤ -324 then PyFloatV.finite neg 0 0
  else if 0 ≤ dexp then roundPQ neg (n * 10 ^ dexp.toNat) 1
  else roundPQ neg n (10 ^ (-dexp).toNat)

/-- Signed exponent part of a float literal: an optional sign followed by at
least one digit, consuming the whole remainder. -/
def pyExpVal (t : List Char) : Option Int :=
  let sd := match t with
    | '+' :: rest => (false, rest)
    | '-' :: rest => (true, rest)
    | _ => (false, t)
  let ed := sd.2.takeWhile Char.isDigit
  let rest := sd.2.dropWhile Char.isDigit
  if ed.isEmpty || !rest.isEmpty then none
  else some (if sd.1 then -(digitsVal ed : Int) else (digitsVal ed : Int))

/-- Decimal-literal branch of the `float` model, after sign removal: check
the underscore rule and drop the underscores, then parse digits, an optional
fraction and an optional exponent; at least one digit must be present. -/
def pyFloatDigits (r : List Char) (neg : Bool) : Option PyFloatV :=
  if usValid r then
    let r2 := r.filter (fun c => c != '_')
    let ip := r2.takeWhile Char.isDigit
    let rest1 := r2.dropWhile Char.isDigit
    let fp := match rest1 with
      | '.' :: t => t.takeWhile Char.isDigit
      | _ => []
    let rest2 := match rest1 with
      | '.' :: t => t.dropWhile Char.isDigit
      | _ => rest1
    let ex : Option Int := match rest2 with
      | [] => some 0
      | 'e' :: t => pyExpVal t
      | 'E' :: t => pyExpVal t
      | _ => none
    match ex with
    | none => none
    | some ev =>
      if ip.isEmpty && fp.isEmpty then none
      else
        some (decToFloat neg (digitsVal (ip ++ fp)) (ev - (fp.length : Int))
          (ip.length + fp.length))
  else none

/-- Sign-stripped body of the `float` model: the case-insensitive words
`inf`, `infinity` and `nan`, else a decimal literal. -/
def pyFloatSigned (neg : Bool) (r : List Char) : Option PyFloatV :=
  let low := r.map lowerAscii
  if low = "inf".data || low = "infinity".data then some (PyFloatV.inf neg)
  else if low = "nan".data then some PyFloatV.nan
  else pyFloatDigits r neg

/-- Model of Python `float(s)` on ASCII text: strip surrounding whitespace,
take an optional sign, then the signed body.  `none` models the
`ValueError` raised on any other text. -/
def pyFloatEx (s : String) : Option PyFloatV :=
  let l1 := s.data.dropWhile isPySpace
  let l2 := (l1.reverse.dropWhile isPySpace).reverse
  match l2 with
  | '+' :: rest => pyFloatSigned false rest
  | '-' :: rest => pyFloatSigned true rest
  | l => pyFloatSigned false l

/-- Model of Python `int` on a finite float value `(-1) ^ neg * m * 2 ^ e2`:
truncation toward zero, computed by natural division on the magnitude. -/
def intOfFinite (neg : Bool) (m : Nat) (e2 : Int) : Int :=
  let mag : Nat := if 0 ≤ e2 then m * 2 ^ e2.toNat else m / 2 ^ (-e2).toNat
  cond neg (-(mag : Int)) (mag : Int)

/-- Fuel-driven worker behind the model of Python `str.replace`: scan left to
right, replacing each non-overlapping occurrence of `old` by `new`.  The fuel
is the length of the scanned list, which suffices. -/
def replaceChAux (old new : List Char) : Nat → List Char → List Char
  | _, [] => []
  | 0, l => l
  | Nat.succ fuel, c :: cs =>
    if old ≠ [] ∧ old.isPrefixOf (c :: cs) then
      new ++ replaceChAux old new fuel (cs.drop (old.length - 1))
    else
      c :: replaceChAux old new fuel cs

/-- Model of Python `s.replace(old, new)` for a non-empty pattern: all
non-overlapping occurrences are replaced, scanning left to right. -/
def pyReplace (s old new : String) : String :=
  String.mk (replaceChAux old.data new.data s.data.length s.data)

/-- Outcome of `int(float_value)` under the except clause of
`clean_number`, `except (ValueError, TypeError): return 0`: a failed
`float` parse raises a caught `ValueError` (fallback `0`), `int` of a nan
raises a caught `ValueError` (fallback `0`), `int` of a finite double
truncates toward zero, and `int` of an infinity raises `OverflowError`,
which the clause does not catch. -/
def pyIntFloat : Option PyFloatV → Except String Int
  | none => Except.ok 0
  | some PyFloatV.nan => Except.ok 0
  | some (PyFloatV.inf _) =>
      Except.error "OverflowError: cannot convert float infinity to integer"
  | some (PyFloatV.finite neg m e2) => Except.ok (intOfFinite neg m e2)

/-- Exception-faithful embedding of `clean_number` (excel_to_csv_app.py
lines 8 to 12): `int(float(str(value).replace(",", ".")))` under the except
clause, an error value carrying the text of an escaping exception. -/
def clean_numberEx (value : Value) : Except String Int :=
  pyIntFloat (pyFloatEx (pyReplace (pyStr value) "," "."))

/-- The rational number denoted by a finite float value. -/
def finiteVal (neg : Bool) (m : Nat) (e2 : Int) : Rat :=
  (cond neg (-1) 1) * (m : Rat) * (2 : Rat) ^ e2

/-- Stated from the specification text, for comparison with
`clean_numberEx`: convert to text, normalize the comma to a period, parse as
a floating-point number, then truncate toward zero (floor for nonnegative
values, ceiling for negative ones); a parse failure or a nan yields the
fallback integer `0`, while an infinity makes the integer conversion
overflow with an uncaught exception. -/
def truncSpecFloat : Option PyFloatV → Except String Int
  | none => Except.ok 0
  | some PyFloatV.nan => Except.ok 0
  | some (PyFloatV.inf _) =>
      Except.error "OverflowError: cannot convert float infinity to integer"
  | some (PyFloatV.finite neg m e2) =>
      Except.ok (if 0 ≤ finiteVal neg m e2 then ⌊finiteVal neg m e2⌋
        else ⌈finiteVal neg m e2⌉)

/-- The spec-side cleaning outcome: the parse followed by the spec-worded
truncation of `truncSpecFloat` above. -/
def cleanNumberSpecEx (value : Value) : Except String Int :=
  truncSpecFloat (pyFloatEx (pyReplace (pyStr value) "," "."))

/-- The plain integer carried by a non-raising cleaning outcome. -/
def okOr0 : Except String Int → Int
  | Except.ok z => z
  | Except.error _ => 0

/-- The integer a cleaned cell carries in the frame pipeline: the value
`clean_number` returns whenever it returns at all.  On the cells where the
source instead raises an uncaught `OverflowError` (an infinity reaching
`int`, see `clean_numberEx`) the pipeline value is the fallback `0`; the
concrete frames of the pipeline theorems below contain no such cell. -/
def clean_number (value : Value) : Int :=
  okOr0 (clean_numberEx value)

/-- A tabular frame: named columns and positionally aligned rows, the model
of the pandas DataFrame the converter manipulates.  Rows are aligned with
the column list by position and column names are unique within a frame. -/
structure Frame where
  cols : List String
  rows : List (List Value)
deriving DecidableEq

/-- Cell of row `r` in the column named `c`: the value at the position of
the first column called `c` (column names are unique in a frame); missing
positions give the missing value. -/
def getCell : List String → List Value → String → Value
  | [], _, _ => Value.na
  | _, [], _ => Value.na
  | c0 :: cs, v :: vs, c => if c0 = c then v else getCell cs vs c

/-- Python rendering `str(l)` of a list of strings, as interpolated into the
f-string diagnostic of `process_file`. -/
def pyListStr (l : List String) : String :=
  "[" ++ String.intercalate ", " (l.map (fun s => "\x27" ++ s ++ "\x27")) ++ "]"

/-- Column reduction `df[valid_columns]`: keep exactly the columns named in
`valid`, in that order, projecting every row accordingly. -/
def reduceFrame (df : Frame) (valid : List String) : Frame :=
  Frame.mk valid (df.rows.map (fun r => valid.map (fun c => getCell df.cols r c)))

/-- Embedding of the column-selection step (lines 20 to 27): when `columns`
is non-empty, keep the requested names that exist; if none exists, the code
returns a bare diagnostic string (`Sum.inl`), otherwise the reduced frame. -/
def selectColumns (df : Frame) (columns : List String) : Sum String Frame :=
  if columns = [] then Sum.inr df
  else
    let available := df.cols
    let valid := columns.filter (fun c => decide (c ∈ available))
    if valid = [] then
      Sum.inl ("Error: None of the specified columns " ++ pyListStr columns ++
        " found in the file. Available columns: " ++ pyListStr available)
    else Sum.inr (reduceFrame df valid)

/-- Embedding of the row-filtering step (lines 30 to 31): when a truthy
filter column is given and names a column of the frame at hand, keep exactly
the rows whose textual cell in that column has length at least `min_length`;
otherwise the frame is unchanged. -/
def filterRows (df : Frame) (filter_column : Option String) (min_length : Nat) : Frame :=
  match filter_column with
  | none => df
  | some c =>
    if c ≠ "" ∧ c ∈ df.cols then
      Frame.mk df.cols
        (df.rows.filter (fun r => decide (min_length ≤ (pyStr (getCell df.cols r c)).length)))
    else df

/-- Cleaning step on one row: the cell of the first column is passed through,
every later cell is replaced by its cleaned integer (lines 33 to 35, which
apply `clean_number` to every column except the first). -/
def cleanRow : List Value → List Value
  | [] => []
  | v :: vs => v :: vs.map (fun x => Value.int (clean_number x))

/-- Cleaning step on the whole frame: rows are positionally aligned with the
columns, so cleaning all columns but the first acts on each row as
`cleanRow`. -/
def cleanFrame (df : Frame) : Frame :=
  Frame.mk df.cols (df.rows.map cleanRow)

/-- Minimal quoting of `to_csv`: a field containing the separator, a quote
character or a line break is wrapped in double quotes with inner quotes
doubled; any other field is emitted verbatim. -/
def csvField (s : String) : String :=
  if s.data.any (fun ch => ch == ';' || ch == '\"' || ch == '\n' || ch == '\r') then
    "\"" ++ pyReplace s "\"" "\"\"" ++ "\""
  else s

/-- Textual form of one cell in the CSV output: a missing cell renders as
the empty field, every other cell as its quoted textual form. -/
def csvCell : Value → String
  | Value.na => ""
  | v => csvField (pyStr v)

/-- Embedding of `df.to_csv(sep=";", index=False, header=False)` (line 38):
no header line, no index column, fields joined by `;`, every row terminated
by a newline (the last row included). -/
def to_csv (df : Frame) : String :=
  String.join (df.rows.map (fun r => String.intercalate ";" (r.map csvCell) ++ "\n"))

/-- Return shape of `process_file`: the function body returns either a pair
(artifact-or-none together with a message) or, on one branch, a bare
string. -/
inductive PFResult
  | pair (artifact : Option String) (msg : String)
  | bare (s : String)
deriving DecidableEq

/-- Embedding of `process_file` (lines 14 to 41).  The already-performed
read of the sheet is passed as an `Except` value: a read failure carries the
exception text and is converted by the handler into the pair
`(None, "Error processing file: ...")`. -/
def process_file (read : Except String Frame) (columns : List String)
    (filter_column : Option String) (min_length : Nat) : PFResult :=
  match read with
  | Except.error e => PFResult.pair none ("Error processing file: " ++ e)
  | Except.ok df0 =>
    match selectColumns df0 columns with
    | Sum.inl msg => PFResult.bare msg
    | Sum.inr df1 =>
      let df2 := filterRows df1 filter_column min_length
      let df3 := cleanFrame df2
      PFResult.pair (some (to_csv df3)) "Successfully processed file"

/-- Artifact observation of a `process_file` return value: the artifact
component of a pair; a bare string return carries no artifact. -/
def artifactOf : PFResult → Option String
  | PFResult.pair a _ => a
  | PFResult.bare _ => none

/-- Message observation of a `process_file` return value: the message
component of a pair, or the bare string itself. -/
def messageOf : PFResult → String
  | PFResult.pair _ m => m
  | PFResult.bare s => s

/-- Embedding of the default-index expression of the sheet selectbox
(line 67): `index=0 if "ceník" in sheet_names else 0`. -/
def sheetSelectIndex (sheet_names : List String) : Nat :=
  if "ceník" ∈ sheet_names then 0 else 0

/-- Textual suffix test on strings, by code points. -/
def strEndsWith (s suf : String) : Bool :=
  suf.data.isSuffixOf s.data

/-- Embedding of the upload filter (line 58): the uploader accepts exactly
the two spreadsheet extensions `xlsx` and `xls`. -/
def acceptedUpload (name : String) : Bool :=
  strEndsWith name ".xlsx" || strEndsWith name ".xls"

/-- Embedding of the default output file name (line 127):
`uploaded_file.name.replace(".xlsx", ".csv")`. -/
def defaultOutputFilename (name : String) : String :=
  pyReplace name ".xlsx" ".csv"

/-- Outcome of the commit step of the session flow: either the success path
(message, download link, file written) or the error path (the message shown
as an error, no link offered, no file written). -/
inductive CommitOutcome
  | success (artifact : String) (msg : String)
  | errorShown (msg : String)
deriving DecidableEq

/-- Embedding of the commit step (lines 146 to 156): `if csv_data:` tests
Python truthiness, so both a missing artifact and an empty artifact take the
error branch. -/
def commitStep (csv_data : Option String) (result_message : String) : CommitOutcome :=
  match csv_data with
  | some s => if s = "" then CommitOutcome.errorShown result_message
              else CommitOutcome.success s result_message
  | none => CommitOutcome.errorShown result_message

/-- The 3-row, 2-column price-list sheet of the end-to-end scenario. -/
def exFrame : Frame :=
  Frame.mk ["Article", "Cost"]
    [[Value.str "A1", Value.str "12,50"],
     [Value.str "B2", Value.str "x"],
     [Value.str "C3", Value.int 7]]

/-! ### Helper lemmas -/

theorem trunc_intCast (z : Int) :
    (if 0 ≤ ((z : Int) : Rat) then ⌊((z : Int) : Rat)⌋ else ⌈((z : Int) : Rat)⌉) = z := by
  split
  · exact Int.floor_intCast z
  · exact Int.ceil_intCast z

theorem floor_natCast_div_pow (m j : Nat) :
    ⌊(m : Rat) / ((2 : Rat) ^ j)⌋ = ((m / 2 ^ j : Nat) : Int) := by
  have h1 : ((2 : Rat) ^ j) = ((2 ^ j : Nat) : Rat) := by push_cast; ring
  have h2 : ((m : Rat)) = (((m : Int) : Rat)) := by push_cast; ring
  rw [h1, h2, Rat.floor_intCast_div_natCast, Int.ofNat_ediv]

theorem intOfFinite_eq_trunc (neg : Bool) (m : Nat) (e2 : Int) :
    intOfFinite neg m e2 =
      if 0 ≤ finiteVal neg m e2 then ⌊finiteVal neg m e2⌋
      else ⌈finiteVal neg m e2⌉ := by
  by_cases he : 0 ≤ e2
  · have hpow : (2 : Rat) ^ e2 = ((2 ^ e2.toNat : Nat) : Rat) := by
      have h3 : (2 : Rat) ^ e2 = (2 : Rat) ^ ((e2.toNat : Nat) : Int) := by
        rw [Int.toNat_of_nonneg he]
      rw [h3, zpow_natCast]
      push_cast
      ring
    cases neg with
    | false =>
      have hio : intOfFinite false m e2 = ((m * 2 ^ e2.toNat : Nat) : Int) := by
        rw [intOfFinite, if_pos he]
        rfl
      have hv : finiteVal false m e2 = (((m * 2 ^ e2.toNat : Nat) : Int) : Rat) := by
        rw [finiteVal, hpow]
        simp only [Bool.cond_false]
        push_cast
        ring
      rw [hio, hv, trunc_intCast]
    | true =>
      have hio : intOfFinite true m e2 = -((m * 2 ^ e2.toNat : Nat) : Int) := by
        rw [intOfFinite, if_pos he]
        rfl
      have hv : finiteVal true m e2 = ((-((m * 2 ^ e2.toNat : Nat) : Int) : Int) : Rat) := by
        rw [finiteVal, hpow]
        simp only [Bool.cond_true]
        push_cast
        ring
      rw [hio, hv, trunc_intCast]
  · have hj : (((-e2).toNat : Nat) : Int) = -e2 := Int.toNat_of_nonneg (by omega)
    have hpow : (2 : Rat) ^ e2 = ((2 : Rat) ^ ((-e2).toNat : Nat))⁻¹ := by
      rw [← zpow_natCast (2 : Rat) (-e2).toNat, hj, ← zpow_neg, neg_neg]
    have hfloor : ⌊(m : Rat) * ((2 : Rat) ^ e2)⌋ = ((m / 2 ^ (-e2).toNat : Nat) : Int) := by
      rw [hpow, ← div_eq_mul_inv, floor_natCast_div_pow]
    have hnn : (0 : Rat) ≤ (m : Rat) * ((2 : Rat) ^ e2) := by
      rw [hpow, ← div_eq_mul_inv]
      positivity
    cases neg with
    | false =>
      have hio : intOfFinite false m e2 = ((m / 2 ^ (-e2).toNat : Nat) : Int) := by
        rw [intOfFinite, if_neg he]
        rfl
      have hval : finiteVal false m e2 = (m : Rat) * ((2 : Rat) ^ e2) := by
        rw [finiteVal]
        simp only [Bool.cond_false]
        ring
      rw [hio, hval, if_pos hnn, hfloor]
    | true =>
      have hio : intOfFinite true m e2 = -((m / 2 ^ (-e2).toNat : Nat) : Int) := by
        rw [intOfFinite, if_neg he]
        rfl
      have hval : finiteVal true m e2 = -((m : Rat) * ((2 : Rat) ^ e2)) := by
        rw [finiteVal]
        simp only [Bool.cond_true]
        ring
      by_cases hm : m = 0
      · subst hm
        rw [hio, hval]
        norm_num
      · have hpos : (0 : Rat) < (m : Rat) * ((2 : Rat) ^ e2) := by
          rw [hpow, ← div_eq_mul_inv]
          have hm2 : (0 : Rat) < (m : Rat) := by
            exact_mod_cast Nat.pos_of_ne_zero hm
          positivity
        have hneg3 : ¬ (0 : Rat) ≤ -((m : Rat) * ((2 : Rat) ^ e2)) := by
          rw [not_le]
          linarith
        rw [hio, hval, if_neg hneg3, Int.ceil_neg, hfloor]

theorem replaceChAux_of_no_match (old new : List Char) :
    ∀ (fuel : Nat) (l : List Char), ¬ (old <:+: l) →
      replaceChAux old new fuel l = l := by
  intro fuel
  induction fuel with
  | zero =>
    intro l _
    cases l with
    | nil => rfl
    | cons c cs => rfl
  | succ f ih =>
    intro l h
    cases l with
    | nil => rfl
    | cons c cs =>
      rw [replaceChAux, if_neg]
      · rw [ih cs (fun hinf => h (List.infix_cons hinf))]
      · rintro ⟨hne, hpf⟩
        exact h ((List.isPrefixOf_iff_prefix.mp hpf).isInfix)

theorem pyReplace_of_no_occurrence (s old new : String)
    (h : ¬ (old.data <:+: s.data)) : pyReplace s old new = s := by
  rw [pyReplace, replaceChAux_of_no_match old.data new.data s.data.length s.data h]

/-! ### Claims -/

/-- C1: the claim states that `process_file` always returns a definite
(artifact-or-none, message) pair, in particular on the branch where the
requested columns have empty intersection with the frame columns.  The code
violates this: on that branch (line 25) it returns a bare diagnostic string,
not a pair, so the caller that unpacks a pair would fail.  This theorem
evaluates the embedding at the failing input and shows the bare-string
return. -/
theorem process_file_bare_on_empty_intersection :
    process_file (Except.ok exFrame) ["Nope"] none 3 =
      PFResult.bare ("Error: None of the specified columns [\x27Nope\x27]" ++
        " found in the file. Available columns: [\x27Article\x27, \x27Cost\x27]") ∧
    ∀ a m, process_file (Except.ok exFrame) ["Nope"] none 3 ≠ PFResult.pair a m := by
  have hb : process_file (Except.ok exFrame) ["Nope"] none 3 =
      PFResult.bare ("Error: None of the specified columns [\x27Nope\x27]" ++
        " found in the file. Available columns: [\x27Article\x27, \x27Cost\x27]") := by
    decide
  refine ⟨hb, fun a m h => ?_⟩
  rw [hb] at h
  exact PFResult.noConfusion h

/-- C2 counterexample: the claim says every value on which a step of
`int(float(str(v).replace(",", ".")))` fails yields the return `0`; but on
the text `inf` (and on a literal overflowing the double range such as
`1e400`) the parse yields an infinity and the `int` step raises
`OverflowError`, which the except clause of `clean_number` does not catch,
so the function raises instead of returning `0`. -/
theorem clean_number_inf_uncaught :
    clean_numberEx (Value.str "inf") =
      Except.error "OverflowError: cannot convert float infinity to integer" ∧
    clean_numberEx (Value.str "inf") ≠ Except.ok 0 ∧
    clean_numberEx (Value.str "1e400") =
      Except.error "OverflowError: cannot convert float infinity to integer" := by
  decide

/-- C2 amended: `clean_number` computes
`int(float(str(v).replace(",", ".")))` whenever that whole computation
succeeds, truncating toward zero; a failed `float` parse (non-numeric text,
missing value) or a nan reaching `int` raises an exception the except
clause catches, returning `0`; but an infinity reaching `int` — `inf` or an
overflowing literal — raises an uncaught `OverflowError`, so the function
raises instead of returning.  The specification examples hold, as do the
exponent and underscore forms the parse accepts. -/
theorem clean_number_exception_spec :
    (∀ v, clean_numberEx v = cleanNumberSpecEx v) ∧
    clean_numberEx (Value.str "12,5") = Except.ok 12 ∧
    clean_numberEx (Value.str "abc") = Except.ok 0 ∧
    clean_numberEx Value.na = Except.ok 0 ∧
    clean_numberEx (Value.int 7) = Except.ok 7 ∧
    clean_numberEx (Value.str "1e5") = Except.ok 100000 ∧
    clean_numberEx (Value.str " 12.5 ") = Except.ok 12 ∧
    clean_numberEx (Value.str "1_000,5") = Except.ok 1000 ∧
    clean_numberEx (Value.str "-2,5") = Except.ok (-2) ∧
    (∀ v, clean_numberEx v = Except.ok (clean_number v) ∨
      clean_numberEx v =
        Except.error "OverflowError: cannot convert float infinity to integer") := by
  refine ⟨fun v => ?_, by decide, by decide, by decide, by decide, by decide,
    by decide, by decide, by decide, fun v => ?_⟩
  · rw [clean_numberEx, cleanNumberSpecEx]
    cases hp : pyFloatEx (pyReplace (pyStr v) "," ".") with
    | none => rfl
    | some fv =>
      cases fv with
      | nan => rfl
      | inf b => rfl
      | finite neg m e2 => exact congrArg Except.ok (intOfFinite_eq_trunc neg m e2)
  · rw [clean_number, clean_numberEx]
    cases hp : pyFloatEx (pyReplace (pyStr v) "," ".") with
    | none => exact Or.inl rfl
    | some fv =>
      cases fv with
      | nan => exact Or.inl rfl
      | inf b => exact Or.inr rfl
      | finite neg m e2 => exact Or.inl rfl

/-- C3 counterexample: on the end-to-end scenario the artifact is not the
claimed newline-joined text; `to_csv` terminates every row, the last one
included, so the artifact carries a trailing newline. -/
theorem to_csv_scenario_not_newline_joined :
    process_file (Except.ok exFrame) ["Article", "Cost"] none 3 =
      PFResult.pair (some "A1;12\nB2;0\nC3;7\n") "Successfully processed file" ∧
    "A1;12\nB2;0\nC3;7\n" ≠ "A1;12\nB2;0\nC3;7" := by
  decide

/-- C3 amended: serialization emits no header row and no row-index column
and joins fields with a semicolon, each row being terminated by a newline
(the last row included); on the scenario sheet, selecting both columns with
no filter, the artifact is exactly `A1;12\nB2;0\nC3;7\n`. -/
theorem to_csv_scenario_amended :
    process_file (Except.ok exFrame) ["Article", "Cost"] none 3 =
      PFResult.pair (some "A1;12\nB2;0\nC3;7\n") "Successfully processed file" ∧
    (∀ cols1 cols2 rows, to_csv (Frame.mk cols1 rows) = to_csv (Frame.mk cols2 rows)) ∧
    (∀ df, to_csv df =
      String.join (df.rows.map (fun r => String.intercalate ";" (r.map csvCell) ++ "\n"))) :=
  ⟨by decide, fun _ _ _ => rfl, fun _ => rfl⟩

/-- C4: when the requested column list is non-empty and its intersection
with the frame columns is non-empty, the selection step returns a reduced
frame whose columns are exactly the requested names that exist, in the
requested order; names absent from the source never appear. -/
theorem selectColumns_requested_order (df : Frame) (columns : List String)
    (h1 : columns ≠ [])
    (h2 : columns.filter (fun c => decide (c ∈ df.cols)) ≠ []) :
    ∃ df2, selectColumns df columns = Sum.inr df2 ∧
      df2.cols = columns.filter (fun c => decide (c ∈ df.cols)) ∧
      (∀ c, c ∈ df2.cols → c ∈ df.cols ∧ c ∈ columns) ∧
      (∀ c, c ∈ columns → c ∉ df.cols → c ∉ df2.cols) := by
  refine ⟨reduceFrame df (columns.filter (fun c => decide (c ∈ df.cols))), ?_, rfl, ?_, ?_⟩
  · rw [selectColumns, if_neg h1]
    exact if_neg h2
  · intro c hc
    have h3 := List.mem_filter.mp hc
    exact ⟨by simpa using h3.2, h3.1⟩
  · intro c _ hnotin hmem
    have h3 := List.mem_filter.mp hmem
    exact hnotin (by simpa using h3.2)

theorem selectColumns_requested_order_witness :
    ∃ df2, selectColumns exFrame ["Cost", "Nope", "Article"] = Sum.inr df2 ∧
      df2.cols = ["Cost", "Nope", "Article"].filter (fun c => decide (c ∈ exFrame.cols)) ∧
      (∀ c, c ∈ df2.cols → c ∈ exFrame.cols ∧ c ∈ ["Cost", "Nope", "Article"]) ∧
      (∀ c, c ∈ ["Cost", "Nope", "Article"] → c ∉ exFrame.cols → c ∉ df2.cols) :=
  selectColumns_requested_order exFrame ["Cost", "Nope", "Article"] (by decide) (by decide)

/-- C8: the claim states that the default sheet selection prefers a sheet
literally named `ceník` when present.  The code violates this: the default
index expression on line 67 reads `0 if "ceník" in sheet_names else 0`, so
the default is always the first sheet; on a workbook whose sheets are
`Sheet1` and `ceník`, the default selection is `Sheet1`. -/
theorem sheet_default_ignores_cenik :
    "ceník" ∈ ["Sheet1", "ceník"] ∧
    sheetSelectIndex ["Sheet1", "ceník"] = 0 ∧
    ["Sheet1", "ceník"].getD (sheetSelectIndex ["Sheet1", "ceník"]) "" = "Sheet1" ∧
    "Sheet1" ≠ "ceník" ∧
    (∀ sheet_names, sheetSelectIndex sheet_names = 0) := by
  refine ⟨by decide, by decide, by decide, by decide, fun l => ?_⟩
  rw [sheetSelectIndex]
  split <;> rfl

/-- C9 counterexample: an upload named `pricelist.xls` is accepted by the
uploader, yet its default output name is unchanged, not the claimed
`pricelist.csv`: line 127 replaces only the literal `.xlsx`. -/
theorem default_output_name_xls_counterexample :
    acceptedUpload "pricelist.xls" = true ∧
    defaultOutputFilename "pricelist.xls" = "pricelist.xls" ∧
    "pricelist.xls" ≠ "pricelist.csv" := by
  decide

/-- C9 amended: the default output name is the uploaded name with every
occurrence of the literal `.xlsx` replaced by `.csv`; a name with no such
occurrence, as with the accepted `.xls` uploads, is left unchanged. -/
theorem default_output_name_amended (name : String)
    (h : ¬ (".xlsx".data <:+: name.data)) :
    defaultOutputFilename name = name ∧
    defaultOutputFilename "pricelist.xlsx" = "pricelist.csv" :=
  ⟨pyReplace_of_no_occurrence name ".xlsx" ".csv" h, by decide⟩

theorem default_output_name_amended_witness :
    defaultOutputFilename "pricelist.xls" = "pricelist.xls" ∧
    defaultOutputFilename "pricelist.xlsx" = "pricelist.csv" :=
  default_output_name_amended "pricelist.xls" (by decide)

/-- C5: when the requested column list is non-empty and none of its names
exists in the frame, `process_file` produces no artifact, and the error
message it produces contains both the requested names and the available
column names. -/
theorem process_file_empty_intersection_diagnostic (df : Frame) (columns : List String)
    (fc : Option String) (ml : Nat)
    (h1 : columns ≠ [])
    (h2 : columns.filter (fun c => decide (c ∈ df.cols)) = []) :
    artifactOf (process_file (Except.ok df) columns fc ml) = none ∧
    (pyListStr columns).data <:+: (messageOf (process_file (Except.ok df) columns fc ml)).data ∧
    (pyListStr df.cols).data <:+: (messageOf (process_file (Except.ok df) columns fc ml)).data := by
  have hsel : selectColumns df columns =
      Sum.inl ("Error: None of the specified columns " ++ pyListStr columns ++
        " found in the file. Available columns: " ++ pyListStr df.cols) := by
    rw [selectColumns, if_neg h1]
    exact if_pos h2
  have hpf : process_file (Except.ok df) columns fc ml =
      PFResult.bare ("Error: None of the specified columns " ++ pyListStr columns ++
        " found in the file. Available columns: " ++ pyListStr df.cols) := by
    simp only [process_file, hsel]
  rw [hpf]
  simp only [artifactOf, messageOf]
  refine ⟨by trivial, ?_, ?_⟩
  · refine ⟨"Error: None of the specified columns ".data,
      (" found in the file. Available columns: " ++ pyListStr df.cols).data, ?_⟩
    simp [String.data_append, List.append_assoc]
  · refine ⟨("Error: None of the specified columns " ++ pyListStr columns ++
      " found in the file. Available columns: ").data, [], ?_⟩
    simp [String.data_append, List.append_assoc]

theorem process_file_empty_intersection_diagnostic_witness :
    artifactOf (process_file (Except.ok exFrame) ["Nope"] none 3) = none ∧
    (pyListStr ["Nope"]).data <:+:
      (messageOf (process_file (Except.ok exFrame) ["Nope"] none 3)).data ∧
    (pyListStr exFrame.cols).data <:+:
      (messageOf (process_file (Except.ok exFrame) ["Nope"] none 3)).data :=
  process_file_empty_intersection_diagnostic exFrame ["Nope"] none 3
    (by decide) (by decide)

/-- C6: when the given filter column is truthy and names a column of the
column-reduced frame, exactly the rows whose textual cell in that column has
length at least `min_length` are retained; when it does not name a column,
filtering is skipped and the frame is unchanged; and inside `process_file`
the filter acts on the already-reduced, not yet cleaned frame. -/
theorem filterRows_length_policy (df : Frame) (c : String) (ml : Nat) :
    (c ≠ "" → c ∈ df.cols →
      (filterRows df (some c) ml).cols = df.cols ∧
      (filterRows df (some c) ml).rows =
        df.rows.filter (fun r => decide (ml ≤ (pyStr (getCell df.cols r c)).length))) ∧
    (c ∉ df.cols → filterRows df (some c) ml = df) ∧
    filterRows df none ml = df ∧
    (∀ df0 columns df1 fc, selectColumns df0 columns = Sum.inr df1 →
      process_file (Except.ok df0) columns fc ml =
        PFResult.pair (some (to_csv (cleanFrame (filterRows df1 fc ml))))
          "Successfully processed file") := by
  refine ⟨fun hne hmem => ?_, fun hnm => ?_, rfl, fun df0 columns df1 fc hsel => ?_⟩
  · rw [filterRows, if_pos ⟨hne, hmem⟩]
    exact ⟨rfl, rfl⟩
  · rw [filterRows, if_neg (fun hh => hnm hh.2)]
  · simp only [process_file, hsel]

theorem filterRows_length_policy_witness :
    (filterRows (reduceFrame exFrame ["Article", "Cost"]) (some "Article") 2).cols =
      (reduceFrame exFrame ["Article", "Cost"]).cols ∧
    (filterRows (reduceFrame exFrame ["Article", "Cost"]) (some "Article") 2).rows =
      (reduceFrame exFrame ["Article", "Cost"]).rows.filter
        (fun r => decide (2 ≤
          (pyStr (getCell (reduceFrame exFrame ["Article", "Cost"]).cols r "Article")).length)) :=
  (filterRows_length_policy (reduceFrame exFrame ["Article", "Cost"]) "Article" 2).1
    (by decide) (by decide)

/-- C7: in the cleaned frame, each cell of the first column is the original
cell passed through unmodified, and each cell of every later column is the
cleaning rule applied to the original cell. -/
theorem cleanFrame_first_column_passthrough (df : Frame) (i j : Nat)
    (hi : i < df.rows.length) (hj : j < (df.rows.getD i []).length) :
    ((cleanFrame df).rows.getD i []).getD j Value.na =
      (if j = 0 then (df.rows.getD i []).getD j Value.na
       else Value.int (clean_number ((df.rows.getD i []).getD j Value.na))) := by
  have hmap : (cleanFrame df).rows = df.rows.map cleanRow := rfl
  rw [hmap]
  rw [List.getD_eq_getElem (df.rows.map cleanRow) [] (by simpa using hi)]
  rw [List.getElem_map]
  rw [List.getD_eq_getElem df.rows [] hi] at hj ⊢
  cases hr : df.rows[i] with
  | nil =>
    rw [hr] at hj
    simp at hj
  | cons v vs =>
    rw [hr] at hj
    cases j with
    | zero => simp [cleanRow]
    | succ jj =>
      have hjj : jj < vs.length := by simpa using hj
      simp only [cleanRow, List.getD_cons_succ, Nat.succ_ne_zero, if_false]
      rw [List.getD_eq_getElem (vs.map (fun x => Value.int (clean_number x))) Value.na
            (by simpa using hjj),
          List.getD_eq_getElem vs Value.na hjj, List.getElem_map]

theorem cleanFrame_first_column_passthrough_witness :
    ((cleanFrame exFrame).rows.getD 0 []).getD 1 Value.na =
      (if (1 : Nat) = 0 then (exFrame.rows.getD 0 []).getD 1 Value.na
       else Value.int (clean_number ((exFrame.rows.getD 0 []).getD 1 Value.na))) :=
  cleanFrame_first_column_passthrough exFrame 0 1 (by decide) (by decide)

/-- C10: when filtering removes every row, `process_file` still returns the
pair of the empty artifact and the success message; the commit step of the
session flow tests the artifact for Python truthiness, so the empty artifact
takes the error branch (message rendered as an error, no download link, no
file written), while any non-empty artifact takes the success branch. -/
theorem process_file_empty_rows_commit (df0 df1 : Frame) (columns : List String)
    (fc : Option String) (ml : Nat)
    (hsel : selectColumns df0 columns = Sum.inr df1)
    (hemp : (filterRows df1 fc ml).rows = []) :
    process_file (Except.ok df0) columns fc ml =
      PFResult.pair (some "") "Successfully processed file" ∧
    commitStep (some "") "Successfully processed file" =
      CommitOutcome.errorShown "Successfully processed file" ∧
    (∀ s m, s ≠ "" → commitStep (some s) m = CommitOutcome.success s m) := by
  refine ⟨?_, rfl, fun s m hs => by rw [commitStep, if_neg hs]⟩
  have hrows : (cleanFrame (filterRows df1 fc ml)).rows = [] := by
    show (filterRows df1 fc ml).rows.map cleanRow = []
    rw [hemp]
    rfl
  have hcsv : to_csv (cleanFrame (filterRows df1 fc ml)) = "" := by
    rw [to_csv, hrows]
    rfl
  simp only [process_file, hsel, hcsv]

theorem process_file_empty_rows_commit_witness :
    process_file (Except.ok exFrame) ["Article", "Cost"] (some "Article") 3 =
      PFResult.pair (some "") "Successfully processed file" ∧
    commitStep (some "") "Successfully processed file" =
      CommitOutcome.errorShown "Successfully processed file" ∧
    (∀ s m, s ≠ "" → commitStep (some s) m = CommitOutcome.success s m) :=
  process_file_empty_rows_commit exFrame (reduceFrame exFrame ["Article", "Cost"])
    ["Article", "Cost"] (some "Article") 3 (by decide) (by decide)
